import Mathlib

/-!
Shallow embedding of `src/utils/format.utils.ts` from the deriv-utils
repository, together with theorems that settle the specification claims.

JavaScript platform built-ins that the source calls (`Intl.NumberFormat`,
`Date` construction and field accessors, `String.prototype.replace` with
the concrete regex literals of the source, `String.prototype.split`,
`RegExp.prototype.exec`) are modelled explicitly below, restricted to the
behaviour the source exercises.  Machine numerics are modelled with `Int`
(timestamps, fraction-digit counts) and `Rat` (monetary amounts).
-/

namespace DerivUtils

/-! ## Character classes used by the regex models -/

/-- Membership in the regex class `[0-9a-zA-Z]`, and in `\d` when restricted
to digits. -/
def isAlnumChar (c : Char) : Bool :=
  (('0' ≤ c) && (c ≤ '9')) || (('a' ≤ c) && (c ≤ 'z')) || (('A' ≤ c) && (c ≤ 'Z'))

/-- Membership in the regex class `\d`. -/
def isDigitChar (c : Char) : Bool :=
  ('0' ≤ c) && (c ≤ '9')

/-- Membership in the regex class `\w` (word character). -/
def isWordChar (c : Char) : Bool :=
  isAlnumChar c || (c = '_')

/-- Membership in the regex class `\s`: the JavaScript whitespace
characters that can occur in the inputs we model. -/
def isSpaceJS (c : Char) : Bool :=
  (c = ' ') || (c = '\t') || (c = '\n') || (c = '\x0b') || (c = '\x0c') || (c = '\r')

/-- Characters matched by the regex dot `.` (without the `s` flag): any
character except a line terminator. -/
def isDotChar (c : Char) : Bool :=
  !((c = '\n') || (c = '\r') || (c = Char.ofNat 0x2028) || (c = Char.ofNat 0x2029))

/-- Length of the longest run of characters satisfying `p` at the head of
the list. -/
def countLeading (p : Char → Bool) : List Char → Nat
  | [] => 0
  | c :: cs => if p c then countLeading p cs + 1 else 0

/-! ## Money formatting (`formatMoney`)

The source reads a static precision registry `CurrencyConstants.precision`
from `src/constants/currency.constants.ts`, a file that is not part of the
sources given to us. -/

/-- Modelled from the spec: the set of supported currency codes of the
registry in `src/constants/currency.constants.ts` (absent from `src/`);
only the codes the spec exercises ("USD" as the fallback, "EUR" in the
examples) are represented. -/
inductive Currency where
  | USD
  | EUR
deriving DecidableEq

/-- Modelled from the spec: the currency precision registry
(`CurrencyConstants.precision`, absent from `src/`).  The spec pins USD at
2 decimal places ("en-US, 2 decimals") and requires a precision for every
supported code. -/
def precision : Currency → Nat
  | Currency.USD => 2
  | Currency.EUR => 2

/-- The `FormatMoneyOptions` object of the source; absent fields are
`none` (JavaScript `undefined`). -/
structure FormatMoneyOptions where
  currency : Option Currency
  decimalPlaces : Option Int
  locale : Option String
deriving DecidableEq

/-- The destructuring `const { locale = "en-US", ... } = options || {}`
applied to the `locale` field. -/
def resolveLocale (options : Option FormatMoneyOptions) : String :=
  match options with
  | none => "en-US"
  | some o => o.locale.getD "en-US"

/-- The lookup `CurrencyConstants.precision[currency ?? "USD"]`. -/
def currencyPrecisionOf (options : Option FormatMoneyOptions) : Nat :=
  precision ((options.bind FormatMoneyOptions.currency).getD Currency.USD)

/-- The resolution `const fractionDigits = decimalPlaces || currencyPrecision`:
JavaScript `||` keeps the left operand unless it is falsy, and both
`undefined` and `0` are falsy. -/
def resolveFractionDigits (options : Option FormatMoneyOptions) : Int :=
  match options.bind FormatMoneyOptions.decimalPlaces with
  | some d => if d = 0 then (currencyPrecisionOf options : Int) else d
  | none => (currencyPrecisionOf options : Int)

/-- Model of `number.toString()` for the fallback branch of `formatMoney`. -/
def jsNumberToString (number : Rat) : String :=
  toString number

/-- Model of `formatMoney`.  The platform primitive
`new Intl.NumberFormat(locale, {minimumFractionDigits, maximumFractionDigits}).format(number)`
is passed in as `intlFormat` (arguments: locale tag, resolved fraction
digits, the number); `Except.error` represents a thrown exception, which
the source's `try`/`catch` converts into `number.toString()`. -/
def formatMoney (intlFormat : String → Int → Rat → Except String String)
    (number : Rat) (options : Option FormatMoneyOptions) : String :=
  match intlFormat (resolveLocale options) (resolveFractionDigits options) number with
  | Except.ok s => s
  | Except.error _ => jsNumberToString number

/-! ## Civil (proleptic Gregorian) date arithmetic

Model of the calendar arithmetic inside the ECMAScript `Date` built-ins
(`MakeDay`, `YearFromTime`, `MonthFromTime`, `DateFromTime`), using the
standard era-based conversion between day numbers (days since the epoch
1970-01-01) and calendar triples.  The host environment is modelled as
running with a UTC local timezone, so local and UTC fields agree. -/

/-- A calendar date as year/month/day, month `1`..`12` and day `1`..`31`
when the date is normalized. -/
structure CivilDate where
  year : Int
  month : Int
  day : Int
deriving DecidableEq

/-- Day number (days since 1970-01-01) of a calendar triple.  The day
component may lie outside `1`..`31`; the formula is linear in it, exactly
like ECMAScript `MakeDay`. -/
def daysFromCivil (y m d : Int) : Int :=
  let yAdj : Int := if m ≤ 2 then y - 1 else y
  let era : Int := yAdj.fdiv 400
  let yoe : Int := yAdj - era * 400
  let mp : Int := if 2 < m then m - 3 else m + 9
  let doy : Int := (153 * mp + 2).fdiv 5 + d - 1
  let doe : Int := yoe * 365 + yoe.fdiv 4 - yoe.fdiv 100 + doy
  era * 146097 + doe - 719468

/-- Calendar triple of a day number (days since 1970-01-01). -/
def civilFromDays (z0 : Int) : CivilDate :=
  let z : Int := z0 + 719468
  let era : Int := z.fdiv 146097
  let doe : Int := z - era * 146097
  let yoe : Int := (doe - doe.fdiv 1460 + doe.fdiv 36524 - doe.fdiv 146096).fdiv 365
  let y : Int := yoe + era * 400
  let doy : Int := doe - (365 * yoe + yoe.fdiv 4 - yoe.fdiv 100)
  let mp : Int := (5 * doy + 2).fdiv 153
  let d : Int := doy - (153 * mp + 2).fdiv 5 + 1
  let m : Int := if mp < 10 then mp + 3 else mp - 9
  { year := if m ≤ 2 then y + 1 else y, month := m, day := d }

/-! ## The JavaScript `Date` model for the formatters

A `Date` value is its internal time value: epoch milliseconds, or `none`
for an Invalid Date (a NaN time value). -/

/-- A JavaScript `Date` value: epoch milliseconds, `none` = Invalid Date. -/
def JSDate : Type := Option Int

/-- Model of `new Date(string)`, i.e. ECMAScript `Date.parse`, restricted
to the ISO forms `YYYY-MM-DD` and `YYYY-MM-DDTHH:mm:ssZ` that the spec
exercises; every other string yields an Invalid Date in this model. -/
def jsDateParse (s : String) : JSDate :=
  match s.toList with
  | [y1, y2, y3, y4, '-', m1, m2, '-', d1, d2] =>
    if (isDigitChar y1 && isDigitChar y2 && isDigitChar y3 && isDigitChar y4 &&
        isDigitChar m1 && isDigitChar m2 && isDigitChar d1 && isDigitChar d2) then
      let y : Int := 1000 * ((y1.toNat : Int) - 48) + 100 * ((y2.toNat : Int) - 48) +
        10 * ((y3.toNat : Int) - 48) + ((y4.toNat : Int) - 48)
      let m : Int := 10 * ((m1.toNat : Int) - 48) + ((m2.toNat : Int) - 48)
      let d : Int := 10 * ((d1.toNat : Int) - 48) + ((d2.toNat : Int) - 48)
      if 1 ≤ m ∧ m ≤ 12 ∧ 1 ≤ d ∧ d ≤ 31 then
        some (daysFromCivil y m d * 86400000)
      else none
    else none
  | [y1, y2, y3, y4, '-', m1, m2, '-', d1, d2, 'T', h1, h2, ':', n1, n2, ':', s1, s2, 'Z'] =>
    if (isDigitChar y1 && isDigitChar y2 && isDigitChar y3 && isDigitChar y4 &&
        isDigitChar m1 && isDigitChar m2 && isDigitChar d1 && isDigitChar d2 &&
        isDigitChar h1 && isDigitChar h2 && isDigitChar n1 && isDigitChar n2 &&
        isDigitChar s1 && isDigitChar s2) then
      let y : Int := 1000 * ((y1.toNat : Int) - 48) + 100 * ((y2.toNat : Int) - 48) +
        10 * ((y3.toNat : Int) - 48) + ((y4.toNat : Int) - 48)
      let m : Int := 10 * ((m1.toNat : Int) - 48) + ((m2.toNat : Int) - 48)
      let d : Int := 10 * ((d1.toNat : Int) - 48) + ((d2.toNat : Int) - 48)
      let hh : Int := 10 * ((h1.toNat : Int) - 48) + ((h2.toNat : Int) - 48)
      let mm : Int := 10 * ((n1.toNat : Int) - 48) + ((n2.toNat : Int) - 48)
      let ss : Int := 10 * ((s1.toNat : Int) - 48) + ((s2.toNat : Int) - 48)
      if 1 ≤ m ∧ m ≤ 12 ∧ 1 ≤ d ∧ d ≤ 31 ∧ hh ≤ 23 ∧ mm ≤ 59 ∧ ss ≤ 59 then
        some (daysFromCivil y m d * 86400000 + hh * 3600000 + mm * 60000 + ss * 1000)
      else none
    else none
  | _ => none

/-- The `dateInput` parameter of the formatters: a JavaScript value of
type `Date`, `string`, `number`, or (outside the TypeScript annotation but
possible from JavaScript) any other value, represented by `bool`. -/
inductive DateInput where
  | date (d : JSDate)
  | str (s : String)
  | num (n : Int)
  | bool (b : Bool)

/-- The input-normalization prelude shared by `getFormattedDateString` and
`getFormattedTimeString`:
`if (typeof dateInput === "number" && unix) ... else if (typeof dateInput === "string" || dateInput instanceof Date) ... else throw new Error("Invalid date input")`. -/
def jsNewDateFromInput : DateInput → Bool → Except String JSDate
  | DateInput.num n, true => Except.ok (some (n * 1000))
  | DateInput.str s, _ => Except.ok (jsDateParse s)
  | DateInput.date d, _ => Except.ok d
  | _, _ => Except.error "Invalid date input"

/-! ## `toLocaleDateString("en-GB", options)` -/

/-- The fields of `Intl.DateTimeFormatOptions` the source reads or writes
(`day`, `month`, `year`). -/
structure DateTimeFormatOptions where
  day : String
  month : String
  year : String
deriving DecidableEq

/-- The default `options` argument of `getFormattedDateString`:
`{ day: "2-digit", month: "2-digit", year: "numeric" }`. -/
def defaultDateOptions : DateTimeFormatOptions :=
  { day := "2-digit", month := "2-digit", year := "numeric" }

/-- Modern CLDR abbreviated month names for the `en-GB` locale; note the
four-letter "Sept" for month 9. -/
def enGBShortMonth (m : Int) : String :=
  if m = 1 then "Jan" else if m = 2 then "Feb" else if m = 3 then "Mar"
  else if m = 4 then "Apr" else if m = 5 then "May" else if m = 6 then "Jun"
  else if m = 7 then "Jul" else if m = 8 then "Aug" else if m = 9 then "Sept"
  else if m = 10 then "Oct" else if m = 11 then "Nov" else "Dec"

/-- A `"2-digit"` field: the value rendered with a leading zero below 10. -/
def twoDigit (n : Int) : String :=
  if 0 ≤ n ∧ n < 10 then "0" ++ toString n else toString n

/-- Model of `dateObj.toLocaleDateString("en-GB", dateOptions)` for the
option combinations the source produces: `"DD/MM/YYYY"` for a 2-digit
month and `"DD Mon YYYY"` for a short month; an Invalid Date renders as
the literal string "Invalid Date". -/
def toLocaleDateStringEnGB (dateObj : JSDate) (opts : DateTimeFormatOptions) : String :=
  match dateObj with
  | none => "Invalid Date"
  | some ms =>
    let c := civilFromDays (ms.fdiv 86400000)
    if opts.month = "short" then
      twoDigit c.day ++ " " ++ enGBShortMonth c.month ++ " " ++ toString c.year
    else
      twoDigit c.day ++ "/" ++ twoDigit c.month ++ "/" ++ toString c.year

/-! ## The three `String.prototype.replace` calls of `getFormattedDateString`

Each regex has no `g` flag behaviour to model beyond the first match (the
literals are fresh on each call), so `replace` rewrites the leftmost match
only and leaves the string unchanged when there is no match. -/

/-- Does the fixed-length character-class pattern match a prefix of the
list? -/
def matchClasses : List (Char → Bool) → List Char → Bool
  | [], _ => true
  | _ :: _, [] => false
  | p :: ps, c :: cs => p c && matchClasses ps cs

/-- The pattern `(\d{2}) (\w{3}) (\d{4})` of the `"MMM DD YYYY"` branch. -/
def reorderPat : List (Char → Bool) :=
  [isDigitChar, isDigitChar, (· = ' '), isWordChar, isWordChar, isWordChar,
   (· = ' '), isDigitChar, isDigitChar, isDigitChar, isDigitChar]

/-- Leftmost-match rewrite for
`.replace(/(\d{2}) (\w{3}) (\d{4})/, "$2 $1 $3")`. -/
def replaceReorderAux : List Char → List Char
  | [] => []
  | c :: cs =>
    if matchClasses reorderPat (c :: cs) then
      ((c :: cs).drop 3).take 3 ++ ' ' :: (c :: cs).take 2 ++ ' ' ::
        ((c :: cs).drop 7).take 4 ++ (c :: cs).drop 11
    else c :: replaceReorderAux cs

/-- `.replace(/(\d{2}) (\w{3}) (\d{4})/, "$2 $1 $3")` on a string. -/
def replaceReorder (s : String) : String :=
  List.asString (replaceReorderAux s.toList)

/-- The pattern `(\d{2}) (\w{3,4}) (\d{4})` with a 4-letter month (the
greedy quantifier tries 4 first). -/
def truncPat4 : List (Char → Bool) :=
  [isDigitChar, isDigitChar, (· = ' '), isWordChar, isWordChar, isWordChar, isWordChar,
   (· = ' '), isDigitChar, isDigitChar, isDigitChar, isDigitChar]

/-- The pattern `(\d{2}) (\w{3,4}) (\d{4})` with a 3-letter month. -/
def truncPat3 : List (Char → Bool) :=
  [isDigitChar, isDigitChar, (· = ' '), isWordChar, isWordChar, isWordChar,
   (· = ' '), isDigitChar, isDigitChar, isDigitChar, isDigitChar]

/-- Leftmost-match rewrite for
`.replace(/(\d{2}) (\w{3,4}) (\d{4})/, (_, day, month, year) => day + " " + month.slice(0, 3) + " " + year)`. -/
def replaceTruncateAux : List Char → List Char
  | [] => []
  | c :: cs =>
    if matchClasses truncPat4 (c :: cs) then
      (c :: cs).take 2 ++ ' ' :: ((c :: cs).drop 3).take 3 ++ ' ' ::
        ((c :: cs).drop 8).take 4 ++ (c :: cs).drop 12
    else if matchClasses truncPat3 (c :: cs) then
      (c :: cs).take 2 ++ ' ' :: ((c :: cs).drop 3).take 3 ++ ' ' ::
        ((c :: cs).drop 7).take 4 ++ (c :: cs).drop 11
    else c :: replaceTruncateAux cs

/-- The month-truncating `replace` of the source on a string. -/
def replaceTruncate (s : String) : String :=
  List.asString (replaceTruncateAux s.toList)

/-- The pattern `(\d{2})\/(\d{2})\/(\d{4})`. -/
def slashPat : List (Char → Bool) :=
  [isDigitChar, isDigitChar, (· = '/'), isDigitChar, isDigitChar, (· = '/'),
   isDigitChar, isDigitChar, isDigitChar, isDigitChar]

/-- Leftmost-match rewrite for
`.replace(/(\d{2})\/(\d{2})\/(\d{4})/, "$3-$2-$1")`. -/
def replaceSlashesAux : List Char → List Char
  | [] => []
  | c :: cs =>
    if matchClasses slashPat (c :: cs) then
      ((c :: cs).drop 6).take 4 ++ '-' :: ((c :: cs).drop 3).take 2 ++ '-' ::
        (c :: cs).take 2 ++ (c :: cs).drop 10
    else c :: replaceSlashesAux cs

/-- `.replace(/(\d{2})\/(\d{2})\/(\d{4})/, "$3-$2-$1")` on a string. -/
def replaceSlashes (s : String) : String :=
  List.asString (replaceSlashesAux s.toList)

/-! ## `getFormattedDateString` -/

/-- Model of `getFormattedDateString(dateInput, options, format, unix)`.
The `switch` overrides all three option fields in every branch; the
`"MMM DD YYYY"` branch returns early with the reordering `replace`, the
other branches fall through to the month-truncating `replace`, and the
default branch additionally rewrites `DD/MM/YYYY` to `YYYY-MM-DD`. -/
def getFormattedDateString (dateInput : DateInput) (options : DateTimeFormatOptions)
    (format : String) (unix : Bool) : Except String String :=
  match jsNewDateFromInput dateInput unix with
  | Except.error e => Except.error e
  | Except.ok dateObj =>
    if format = "DD MMM YYYY" then
      Except.ok (replaceTruncate (toLocaleDateStringEnGB dateObj
        { options with day := "2-digit", month := "short", year := "numeric" }))
    else if format = "MMM DD YYYY" then
      Except.ok (replaceReorder (toLocaleDateStringEnGB dateObj
        { options with day := "2-digit", month := "short", year := "numeric" }))
    else
      Except.ok (replaceSlashes (replaceTruncate (toLocaleDateStringEnGB dateObj
        { options with year := "numeric", month := "2-digit", day := "2-digit" })))

/-! ## `getFormattedTimeString` -/

/-- Model of `dateObj.getUTCHours()`: `HourFromTime` of ECMAScript, i.e.
`floor(t / msPerHour) modulo HoursPerDay` (the modulo is non-negative). -/
def getUTCHours (ms : Int) : Int := (ms.fdiv 3600000) % 24

/-- Model of `dateObj.getUTCMinutes()`. -/
def getUTCMinutes (ms : Int) : Int := (ms.fdiv 60000) % 60

/-- Model of `dateObj.getUTCSeconds()`. -/
def getUTCSeconds (ms : Int) : Int := (ms.fdiv 1000) % 60

/-- A UTC field rendered with `.toString()`: on an Invalid Date the field
is NaN and renders as "NaN". -/
def utcFieldString (dateObj : JSDate) (field : Int → Int) : String :=
  match dateObj with
  | none => "NaN"
  | some ms => toString (field ms)

/-- Model of `"...".padStart(2, "0")`. -/
def padStart2 (s : String) : String :=
  if s.length = 0 then "00" else if s.length = 1 then "0" ++ s else s

/-- Model of `getFormattedTimeString(dateInput, unix)`. -/
def getFormattedTimeString (dateInput : DateInput) (unix : Bool) : Except String String :=
  match jsNewDateFromInput dateInput unix with
  | Except.error e => Except.error e
  | Except.ok dateObj =>
    Except.ok (padStart2 (utcFieldString dateObj getUTCHours) ++ ":" ++
      padStart2 (utcFieldString dateObj getUTCMinutes) ++ ":" ++
      padStart2 (utcFieldString dateObj getUTCSeconds) ++ " GMT")

/-! ## `getAdjustedDate`

`new Date()` is the current moment; the function is modelled as a pure
function of the current calendar date `now` (the time-of-day fields are
untouched by the source and are omitted).  The `Date` setters are the
ECMAScript ones: they renormalize an out-of-range field through the
calendar (`MakeDay`). -/

/-- Model of `date.getDate()` (day of month). -/
def jsGetDate (c : CivilDate) : Int := c.day

/-- Model of `date.getFullYear()`. -/
def jsGetFullYear (c : CivilDate) : Int := c.year

/-- Model of `date.setDate(d)`: keep the year and month fields, set the
day to `d`, and renormalize through the calendar. -/
def jsSetDate (c : CivilDate) (d : Int) : CivilDate :=
  civilFromDays (daysFromCivil c.year c.month d)

/-- Model of `date.setFullYear(y)`: keep the month and day fields, set
the year to `y`, and renormalize through the calendar. -/
def jsSetFullYear (c : CivilDate) (y : Int) : CivilDate :=
  civilFromDays (daysFromCivil y c.month c.day)

/-- Model of `getAdjustedDate(amount, type, operation)`, with the current
date `now` passed explicitly in place of `new Date()`. -/
def getAdjustedDate (now : CivilDate) (amount : Int) (type operation : String) : CivilDate :=
  let adjustedAmount : Int := if operation = "add" then amount else -amount
  if type = "years" then jsSetFullYear now (jsGetFullYear now + adjustedAmount)
  else if type = "days" then jsSetDate now (jsGetDate now + adjustedAmount)
  else now

/-- Modelled from the spec: "a new calendar-date value equal to the
current moment shifted by the signed amount" in days, i.e. the date whose
day number is `now`'s day number plus `n`. -/
def specShiftDays (now : CivilDate) (n : Int) : CivilDate :=
  civilFromDays (daysFromCivil now.year now.month now.day + n)

/-- Modelled from the spec: the current date shifted by `n` years, i.e.
the calendar renormalization of the triple with the year advanced by `n`
and month/day preserved (Feb 29 falling back per standard calendar
rules). -/
def specShiftYears (now : CivilDate) (n : Int) : CivilDate :=
  civilFromDays (daysFromCivil (now.year + n) now.month now.day)

/-! ## `parseCryptoLongcode` -/

/-- Model of `longcode.split(/,\s/)`: split at every non-overlapping
occurrence of a comma followed by one whitespace character. -/
def jsSplitCommaSpace : List Char → List (List Char)
  | [] => [[]]
  | ',' :: w :: rest =>
    if isSpaceJS w then [] :: jsSplitCommaSpace rest
    else
      match jsSplitCommaSpace (w :: rest) with
      | [] => [[',']]
      | t :: ts => (',' :: t) :: ts
  | c :: cs =>
    match jsSplitCommaSpace cs with
    | [] => [[c]]
    | t :: ts => (c :: t) :: ts

/-- Model of `/:\s([0-9a-zA-Z]+.{minDot,maxDot})/.exec` attempted at the
head of the list: the head must be `:`, followed by one whitespace
character, and the capture group is a maximal (greedy, with backtracking)
run of at least one alphanumeric character followed by `minDot` to
`maxDot` further non-line-terminator characters. -/
def matchHashAt (minDot maxDot : Nat) : List Char → Option (List Char)
  | c0 :: w :: rest =>
    if c0 = ':' ∧ isSpaceJS w = true then
      let r := countLeading isAlnumChar rest
      let L := countLeading isDotChar rest
      if 1 ≤ r ∧ minDot + 1 ≤ L then
        let a := min r (L - minDot)
        some (rest.take (a + min maxDot (L - a)))
      else none
    else none
  | _ => none

/-- Model of `regex.exec(s)` for the hash patterns: scan left to right for
the first position where the pattern matches and return capture group 1. -/
def execHash (minDot maxDot : Nat) : List Char → Option (List Char)
  | [] => none
  | c :: cs =>
    match matchHashAt minDot maxDot (c :: cs) with
    | some cap => some cap
    | none => execHash minDot maxDot cs

/-- The result object of `parseCryptoLongcode`. -/
structure CryptoLongcode where
  addressHash : Option String
  blockchainHash : Option String
  splitLongcode : List String
deriving DecidableEq

/-- Indexing `splitLongcode[i]` as `exec` sees it: a missing element is
`undefined`, which `exec` coerces to the string "undefined". -/
def tokenOrUndefined (tokens : List String) (i : Nat) : String :=
  (tokens.get? i).getD "undefined"

/-- Model of `parseCryptoLongcode(longcode)`: split on `/,\s/`, run
`/:\s([0-9a-zA-Z]+.{25,28})/` on token 0 for the address hash and
`/:\s([0-9a-zA-Z]+.{25,34})/` on token 1 for the blockchain hash. -/
def parseCryptoLongcode (longcode : String) : CryptoLongcode :=
  let splitLongcode := (jsSplitCommaSpace longcode.toList).map List.asString
  let addressHash :=
    (execHash 25 28 (tokenOrUndefined splitLongcode 0).toList).map List.asString
  let blockchainHash :=
    (execHash 25 34 (tokenOrUndefined splitLongcode 1).toList).map List.asString
  { addressHash := addressHash, blockchainHash := blockchainHash,
    splitLongcode := splitLongcode }

/-! ## Helper lemmas -/

/-- `daysFromCivil` is linear in the day component, exactly like
ECMAScript `MakeDay`. -/
theorem daysFromCivil_add (y m d n : Int) :
    daysFromCivil y m (d + n) = daysFromCivil y m d + n := by
  simp only [daysFromCivil]
  ring

theorem countLeading_le (p : Char → Bool) (l : List Char) :
    countLeading p l ≤ l.length := by
  induction l with
  | nil => simp [countLeading]
  | cons c cs ih =>
    by_cases h : p c
    · simp only [countLeading, h, if_true, List.length_cons]
      omega
    · simp [countLeading, h]

theorem countLeading_head (p : Char → Bool) (l : List Char)
    (h : 1 ≤ countLeading p l) : ∃ c t, l = c :: t ∧ p c = true := by
  cases l with
  | nil => simp [countLeading] at h
  | cons c t =>
    by_cases hc : p c
    · exact ⟨c, t, rfl, hc⟩
    · simp [countLeading, hc] at h

theorem take_sat_of_countLeading (p : Char → Bool) (l : List Char) (k : Nat)
    (h : k ≤ countLeading p l) : ∀ c ∈ l.take k, p c = true := by
  induction l generalizing k with
  | nil => simp
  | cons c t ih =>
    cases k with
    | zero => simp
    | succ k' =>
      by_cases hc : p c
      · simp only [countLeading, hc, if_true] at h
        intro x hx
        rw [List.take_succ_cons] at hx
        rcases List.mem_cons.mp hx with rfl | hx'
        · exact hc
        · exact ih k' (by omega) x hx'
      · simp [countLeading, hc] at h

/-- Shape of a successful anchored hash match: the pattern consumed a
colon, one whitespace character, and captured at least `minDot + 1`
characters, the first alphanumeric, none of them line terminators. -/
theorem matchHashAt_shape (mn mx : Nat) (hmx : mn ≤ mx) (l cap : List Char)
    (h : matchHashAt mn mx l = some cap) :
    ∃ w suf rest2, l = ':' :: w :: suf ∧ isSpaceJS w = true ∧
      suf = cap ++ rest2 ∧ mn + 1 ≤ cap.length ∧
      (∃ c t, cap = c :: t ∧ isAlnumChar c = true) ∧
      (∀ c ∈ cap, isDotChar c = true) := by
  match l with
  | [] => simp [matchHashAt] at h
  | [c] => simp [matchHashAt] at h
  | c0 :: w :: rest =>
    rw [matchHashAt] at h
    by_cases hcw : c0 = ':' ∧ isSpaceJS w = true
    · rw [if_pos hcw] at h
      obtain ⟨rfl, hw⟩ := hcw
      by_cases hcond : 1 ≤ countLeading isAlnumChar rest ∧
          mn + 1 ≤ countLeading isDotChar rest
      · rw [if_pos hcond] at h
        obtain ⟨hr, hL⟩ := hcond
        set r := countLeading isAlnumChar rest with hrdef
        set L := countLeading isDotChar rest with hLdef
        set a := min r (L - mn) with hadef
        set b := min mx (L - a) with hbdef
        have hcap : cap = rest.take (a + b) := (Option.some.inj h).symm
        have hLlen : L ≤ rest.length := countLeading_le _ _
        have hab : a + b ≤ L := by omega
        have habge : mn + 1 ≤ a + b := by omega
        have hlen : cap.length = a + b := by
          rw [hcap, List.length_take]
          omega
        refine ⟨w, rest, rest.drop (a + b), rfl, hw, ?_, ?_, ?_, ?_⟩
        · rw [hcap, List.take_append_drop]
        · omega
        · obtain ⟨c, t, hrt, hct⟩ := countLeading_head isAlnumChar rest hr
          obtain ⟨k, hk⟩ : ∃ k, a + b = k + 1 := ⟨a + b - 1, by omega⟩
          refine ⟨c, t.take k, ?_, hct⟩
          rw [hcap, hrt, hk, List.take_succ_cons]
        · intro c hcmem
          exact take_sat_of_countLeading isDotChar rest (a + b) (by omega) c
            (hcap ▸ hcmem)
      · rw [if_neg hcond] at h
        exact absurd h (by simp)
    · rw [if_neg hcw] at h
      exact absurd h (by simp)

/-- Shape of a successful `exec` of one of the hash regexes anywhere in
the string. -/
theorem execHash_shape (mn mx : Nat) (hmx : mn ≤ mx) (l cap : List Char)
    (h : execHash mn mx l = some cap) :
    ∃ pre w suf rest2, l = pre ++ ':' :: w :: suf ∧ isSpaceJS w = true ∧
      suf = cap ++ rest2 ∧ mn + 1 ≤ cap.length ∧
      (∃ c t, cap = c :: t ∧ isAlnumChar c = true) ∧
      (∀ c ∈ cap, isDotChar c = true) := by
  induction l with
  | nil => simp [execHash] at h
  | cons c cs ih =>
    rw [execHash] at h
    cases hm : matchHashAt mn mx (c :: cs) with
    | some cap' =>
      rw [hm] at h
      injection h with hcc
      subst hcc
      obtain ⟨w, suf, rest2, hl, hw, hsuf, hlen, hhead, hdot⟩ :=
        matchHashAt_shape mn mx hmx (c :: cs) _ hm
      exact ⟨[], w, suf, rest2, hl, hw, hsuf, hlen, hhead, hdot⟩
    | none =>
      rw [hm] at h
      obtain ⟨pre, w, suf, rest2, hl, hw, hsuf, hlen, hhead, hdot⟩ := ih h
      exact ⟨c :: pre, w, suf, rest2, by rw [List.cons_append, hl], hw, hsuf,
        hlen, hhead, hdot⟩

/-- `padStart2` of the decimal rendering of a value in `0`..`59` has
length exactly 2. -/
theorem padStart2_length_two (k : Int) (h0 : 0 ≤ k) (h1 : k < 60) :
    (padStart2 (toString k)).length = 2 := by
  have hfin : ∀ m : Fin 60, (padStart2 (toString ((m : Nat) : Int))).length = 2 := by decide
  have hk : ((k.toNat : Nat) : Int) = k := Int.toNat_of_nonneg h0
  have hlt : k.toNat < 60 := by omega
  have := hfin ⟨k.toNat, hlt⟩
  simpa [hk] using this

/-! ## Claim theorems -/

/-- C1: the claim says the `"MMM DD YYYY"` tag always returns the
components reordered to month-day-year with the month forced to 3
letters.  The code slips: that branch returns before the truncating
`replace`, and its reordering regex requires exactly 3 word characters,
so a September date (en-GB short month "Sept") comes back unreordered and
untruncated as "15 Sept 2023", while the sibling `"DD MMM YYYY"` branch
does truncate "Sept" to "Sep". -/
theorem getFormattedDateString_mmm_dd_sept_bug :
    getFormattedDateString (DateInput.date (some (daysFromCivil 2023 9 15 * 86400000)))
      defaultDateOptions "MMM DD YYYY" false = Except.ok "15 Sept 2023" ∧
    getFormattedDateString (DateInput.date (some (daysFromCivil 2023 9 15 * 86400000)))
      defaultDateOptions "DD MMM YYYY" false = Except.ok "15 Sep 2023" ∧
    getFormattedDateString (DateInput.date (some (daysFromCivil 2023 5 15 * 86400000)))
      defaultDateOptions "MMM DD YYYY" false = Except.ok "May 15 2023" ∧
    ("15 Sept 2023" ≠ ("Sep 15 2023" : String)) := by
  refine ⟨rfl, rfl, rfl, by decide⟩

/-- C3 counterexample: a plain numeric input with the unix flag false is
not interpreted as a millisecond timestamp; both formatters raise the
invalid-input error on it. -/
theorem numeric_without_unix_flag_throws :
    getFormattedDateString (DateInput.num 1684159800000) defaultDateOptions
      "YYYY-MM-DD" false = Except.error "Invalid date input" ∧
    getFormattedTimeString (DateInput.num 1684159800000) false =
      Except.error "Invalid date input" :=
  ⟨rfl, rfl⟩

/-- C3 amended: a numeric input is accepted only when the unix flag is
true (and is then multiplied by 1000 and formatted); with the flag false
or defaulted it raises the invalid-input error in both formatters. -/
theorem numeric_input_requires_unix_flag (n : Int) (opts : DateTimeFormatOptions)
    (fmt : String) :
    getFormattedDateString (DateInput.num n) opts fmt false =
      Except.error "Invalid date input" ∧
    getFormattedTimeString (DateInput.num n) false =
      Except.error "Invalid date input" ∧
    (∃ s, getFormattedDateString (DateInput.num n) opts fmt true = Except.ok s) ∧
    (∃ s, getFormattedTimeString (DateInput.num n) true = Except.ok s) := by
  refine ⟨rfl, rfl, ?_, ⟨_, rfl⟩⟩
  unfold getFormattedDateString
  show ∃ s, (if fmt = "DD MMM YYYY" then _ else if fmt = "MMM DD YYYY" then _ else _) =
    Except.ok s
  split
  · exact ⟨_, rfl⟩
  · split
    · exact ⟨_, rfl⟩
    · exact ⟨_, rfl⟩

/-- C6: an input value that is neither a `Date`, nor a string, nor a
number with the unix flag set, makes both formatters raise the
descriptive invalid-input error. -/
theorem invalid_input_type_throws (inp : DateInput) (unix : Bool)
    (opts : DateTimeFormatOptions) (fmt : String)
    (hdate : ∀ d, inp ≠ DateInput.date d) (hstr : ∀ s, inp ≠ DateInput.str s)
    (hnum : ∀ n, inp = DateInput.num n → unix = false) :
    getFormattedDateString inp opts fmt unix = Except.error "Invalid date input" ∧
    getFormattedTimeString inp unix = Except.error "Invalid date input" := by
  cases inp with
  | date d => exact absurd rfl (hdate d)
  | str s => exact absurd rfl (hstr s)
  | num n =>
    cases unix with
    | false => exact ⟨rfl, rfl⟩
    | true => exact absurd (hnum n rfl) (by decide)
  | bool b => exact ⟨rfl, rfl⟩

/-- C6 witness: a boolean input raises the invalid-input error. -/
theorem invalid_input_type_throws_bool :
    getFormattedDateString (DateInput.bool true) defaultDateOptions "YYYY-MM-DD" true =
      Except.error "Invalid date input" ∧
    getFormattedTimeString (DateInput.bool true) true =
      Except.error "Invalid date input" :=
  invalid_input_type_throws (DateInput.bool true) true defaultDateOptions "YYYY-MM-DD"
    (fun _ h => nomatch h) (fun _ h => nomatch h) (fun _ h => nomatch h)

/-- C8 counterexample: the unparseable string "garbage" is not rejected;
the date formatter returns the literal string "Invalid Date" and the time
formatter returns "NaN:NaN:NaN GMT". -/
theorem unparseable_string_not_rejected_garbage :
    getFormattedDateString (DateInput.str "garbage") defaultDateOptions "YYYY-MM-DD"
      false = Except.ok "Invalid Date" ∧
    getFormattedTimeString (DateInput.str "garbage") false =
      Except.ok "NaN:NaN:NaN GMT" :=
  ⟨rfl, rfl⟩

/-- C8 amended: a string input that does not parse as a date is not a
terminal error; it flows through as an Invalid Date, so the date
formatter returns "Invalid Date" (under every format tag) and the time
formatter returns "NaN:NaN:NaN GMT"; only unsupported input types raise
the invalid-input error. -/
theorem unparseable_string_produces_result (s : String) (opts : DateTimeFormatOptions)
    (fmt : String) (h : jsDateParse s = none) :
    getFormattedDateString (DateInput.str s) opts fmt false = Except.ok "Invalid Date" ∧
    getFormattedTimeString (DateInput.str s) false = Except.ok "NaN:NaN:NaN GMT" := by
  have hj : jsNewDateFromInput (DateInput.str s) false = Except.ok (jsDateParse s) := rfl
  constructor
  · unfold getFormattedDateString
    rw [hj, h]
    show (if fmt = "DD MMM YYYY" then _ else if fmt = "MMM DD YYYY" then _ else _) = _
    split
    · rfl
    · split
      · rfl
      · rfl
  · unfold getFormattedTimeString
    rw [hj, h]
    rfl

/-- C8 witness: the amended statement applied to the concrete unparseable
string "garbage". -/
theorem unparseable_string_produces_result_witness :
    getFormattedDateString (DateInput.str "garbage") defaultDateOptions "DD MMM YYYY"
      false = Except.ok "Invalid Date" ∧
    getFormattedTimeString (DateInput.str "garbage") false =
      Except.ok "NaN:NaN:NaN GMT" :=
  unparseable_string_produces_result "garbage" defaultDateOptions "DD MMM YYYY" rfl

/-- C9 counterexample: the unix-seconds input 1684159800 does not yield
"14:30:00 GMT"; it is 2023-05-15T14:10:00Z and yields "14:10:00 GMT"
(the instant 14:30:00Z is 1684161000). -/
theorem formatted_time_example_is_14_10 :
    getFormattedTimeString (DateInput.num 1684159800) true = Except.ok "14:10:00 GMT" ∧
    ("14:10:00 GMT" ≠ ("14:30:00 GMT" : String)) ∧
    getFormattedTimeString (DateInput.num 1684161000) true = Except.ok "14:30:00 GMT" :=
  ⟨rfl, by decide, rfl⟩

/-- C9 amended: for every date input the time formatter returns exactly
`HH:mm:ss GMT` built from the zero-padded two-digit UTC hour, minute and
second of the instant (each field in range and rendered with exactly two
characters); the spec's unix-seconds example input 1684159800 however
yields "14:10:00 GMT", not "14:30:00 GMT". -/
theorem getFormattedTimeString_utc_shape (ms n : Int) (u : Bool) :
    getFormattedTimeString (DateInput.date (some ms)) u =
      Except.ok (padStart2 (toString (getUTCHours ms)) ++ ":" ++
        padStart2 (toString (getUTCMinutes ms)) ++ ":" ++
        padStart2 (toString (getUTCSeconds ms)) ++ " GMT") ∧
    getFormattedTimeString (DateInput.num n) true =
      Except.ok (padStart2 (toString (getUTCHours (n * 1000))) ++ ":" ++
        padStart2 (toString (getUTCMinutes (n * 1000))) ++ ":" ++
        padStart2 (toString (getUTCSeconds (n * 1000))) ++ " GMT") ∧
    (0 ≤ getUTCHours ms ∧ getUTCHours ms < 24) ∧
    (0 ≤ getUTCMinutes ms ∧ getUTCMinutes ms < 60) ∧
    (0 ≤ getUTCSeconds ms ∧ getUTCSeconds ms < 60) ∧
    (padStart2 (toString (getUTCHours ms))).length = 2 ∧
    (padStart2 (toString (getUTCMinutes ms))).length = 2 ∧
    (padStart2 (toString (getUTCSeconds ms))).length = 2 ∧
    getFormattedTimeString (DateInput.num 1684159800) true = Except.ok "14:10:00 GMT" ∧
    getFormattedTimeString (DateInput.str "2023-05-15T14:30:00Z") false =
      Except.ok "14:30:00 GMT" := by
  have hh : 0 ≤ getUTCHours ms ∧ getUTCHours ms < 24 :=
    ⟨Int.emod_nonneg _ (by norm_num), Int.emod_lt_of_pos _ (by norm_num)⟩
  have hm : 0 ≤ getUTCMinutes ms ∧ getUTCMinutes ms < 60 :=
    ⟨Int.emod_nonneg _ (by norm_num), Int.emod_lt_of_pos _ (by norm_num)⟩
  have hs : 0 ≤ getUTCSeconds ms ∧ getUTCSeconds ms < 60 :=
    ⟨Int.emod_nonneg _ (by norm_num), Int.emod_lt_of_pos _ (by norm_num)⟩
  refine ⟨rfl, rfl, hh, hm, hs, ?_, ?_, ?_, rfl, rfl⟩
  · exact padStart2_length_two _ hh.1 (by omega)
  · exact padStart2_length_two _ hm.1 hm.2
  · exact padStart2_length_two _ hs.1 hs.2

/-- C2 counterexample: an explicitly supplied `decimalPlaces` of `0` does
not win; `0 || currencyPrecision` is falsy in JavaScript, so the USD
registry precision 2 is used instead (observable through the number of
fraction digits handed to the formatting primitive). -/
theorem decimalPlaces_zero_does_not_win :
    resolveFractionDigits (some ⟨none, some 0, none⟩) = 2 ∧
    formatMoney (fun _ digits _ => Except.ok (toString digits)) 0
      (some ⟨none, some 0, none⟩) = "2" ∧
    ((2 : Int) ≠ 0) :=
  ⟨rfl, rfl, by decide⟩

/-- C2 amended: a supplied nonzero `decimalPlaces` always wins; a
`decimalPlaces` of `0` (or an absent one) is treated as unset by the `||`
and falls back to the precision registered for the given currency, or for
USD when no currency is given. -/
theorem fractionDigits_resolution (o : FormatMoneyOptions) :
    (∀ d : Int, o.decimalPlaces = some d → d ≠ 0 →
      resolveFractionDigits (some o) = d) ∧
    ((o.decimalPlaces = none ∨ o.decimalPlaces = some 0) →
      resolveFractionDigits (some o) =
        (precision (o.currency.getD Currency.USD) : Int)) ∧
    resolveFractionDigits none = (precision Currency.USD : Int) := by
  refine ⟨?_, ?_, rfl⟩
  · intro d hd hd0
    simp [resolveFractionDigits, hd, hd0]
  · intro hcase
    rcases hcase with hd | hd
    · simp [resolveFractionDigits, currencyPrecisionOf, hd]
    · simp [resolveFractionDigits, currencyPrecisionOf, hd]

/-- C2 witness: the amended resolution applied to concrete options (a
nonzero `decimalPlaces` of 3 with currency EUR resolves to 3). -/
theorem fractionDigits_resolution_witness :
    resolveFractionDigits (some ⟨some Currency.EUR, some 3, none⟩) = 3 :=
  (fractionDigits_resolution ⟨some Currency.EUR, some 3, none⟩).1 3 rfl (by decide)

/-- C5: `formatMoney` never propagates an exception: when the locale-aware
formatting primitive throws, the catch returns the plain numeric value as
a string, and when it succeeds its result is returned unchanged. -/
theorem formatMoney_never_throws (intlFormat : String → Int → Rat → Except String String)
    (number : Rat) (options : Option FormatMoneyOptions) :
    (∀ e, intlFormat (resolveLocale options) (resolveFractionDigits options) number =
        Except.error e →
      formatMoney intlFormat number options = jsNumberToString number) ∧
    (∀ s, intlFormat (resolveLocale options) (resolveFractionDigits options) number =
        Except.ok s →
      formatMoney intlFormat number options = s) := by
  constructor
  · intro e he
    unfold formatMoney
    rw [he]
  · intro s hs
    unfold formatMoney
    rw [hs]

/-- C5 witness: with a primitive that always throws (e.g. an unsupported
locale tag), `formatMoney` returns the plain value as a string. -/
theorem formatMoney_never_throws_witness :
    formatMoney (fun _ _ _ => Except.error "RangeError: invalid language tag")
      1234 none = jsNumberToString 1234 :=
  (formatMoney_never_throws (fun _ _ _ => Except.error "RangeError: invalid language tag")
    1234 none).1 "RangeError: invalid language tag" rfl

/-- C7: `getAdjustedDate` shifts the current date by the signed amount of
days or years ("add" adds, "subtract" negates), renormalizing through the
calendar (Feb 29 falls back to Mar 1 in a non-leap target year), and any
other unit string is a silent no-op returning the current date. -/
theorem getAdjustedDate_correct (now : CivilDate) (amount : Int) (type op : String) :
    getAdjustedDate now amount "days" "add" = specShiftDays now amount ∧
    getAdjustedDate now amount "days" "subtract" = specShiftDays now (-amount) ∧
    getAdjustedDate now amount "years" "add" = specShiftYears now amount ∧
    getAdjustedDate now amount "years" "subtract" = specShiftYears now (-amount) ∧
    (type ≠ "days" → type ≠ "years" → getAdjustedDate now amount type op = now) ∧
    getAdjustedDate ⟨2020, 2, 29⟩ 1 "years" "add" = ⟨2021, 3, 1⟩ ∧
    getAdjustedDate ⟨2023, 5, 28⟩ 5 "days" "add" = ⟨2023, 6, 2⟩ := by
  refine ⟨?_, ?_, rfl, rfl, ?_, by decide, by decide⟩
  · show jsSetDate now (jsGetDate now + amount) = specShiftDays now amount
    unfold jsSetDate jsGetDate specShiftDays
    rw [daysFromCivil_add]
  · show jsSetDate now (jsGetDate now + -amount) = specShiftDays now (-amount)
    unfold jsSetDate jsGetDate specShiftDays
    rw [daysFromCivil_add]
  · intro hd hy
    unfold getAdjustedDate
    rw [if_neg hy, if_neg hd]

/-- C7 witness: an unsupported unit ("months") leaves the date unshifted. -/
theorem getAdjustedDate_correct_witness :
    getAdjustedDate ⟨2023, 5, 15⟩ 3 "months" "add" = ⟨2023, 5, 15⟩ :=
  (getAdjustedDate_correct ⟨2023, 5, 15⟩ 3 "months" "add").2.2.2.2.1
    (by decide) (by decide)

/-- C4 counterexample: a defined `addressHash` is not always 26 to 29
alphanumeric characters: 30 alphanumerics after the colon-space are
captured whole (length 30), and since the pattern tail is `.{25,28}` the
capture may contain non-alphanumeric characters such as `!`. -/
theorem addressHash_not_bounded_alnum :
    (parseCryptoLongcode "address: aaaaaaaaaaaaaaaaaaaaaaaaaaaaaa").addressHash =
      some "aaaaaaaaaaaaaaaaaaaaaaaaaaaaaa" ∧
    ("aaaaaaaaaaaaaaaaaaaaaaaaaaaaaa" : String).length = 30 ∧
    (parseCryptoLongcode "x: a!!!!!!!!!!!!!!!!!!!!!!!!!").addressHash =
      some "a!!!!!!!!!!!!!!!!!!!!!!!!!" ∧
    ('!' ∈ ("a!!!!!!!!!!!!!!!!!!!!!!!!!" : String).toList) ∧
    isAlnumChar '!' = false :=
  ⟨rfl, rfl, rfl, by decide, by decide⟩

/-- C4 amended: whenever `addressHash` (resp. `blockchainHash`) is
defined, it was extracted from the first (resp. second) comma-space token
after a colon followed by one whitespace character, and it consists of at
least one leading alphanumeric character followed by 25 to 28 (resp. 25
to 34) further non-line-terminator characters — hence its length is at
least 26, but it is neither alphanumeric-only nor bounded by 29 (resp.
35) characters. -/
theorem parseCryptoLongcode_hash_shape (s : String) (h : String) :
    ((parseCryptoLongcode s).addressHash = some h →
      26 ≤ h.length ∧
      (∃ c t, h.toList = c :: t ∧ isAlnumChar c = true) ∧
      (∀ c ∈ h.toList, isDotChar c = true) ∧
      (∃ pre w suf rest2,
        (tokenOrUndefined (parseCryptoLongcode s).splitLongcode 0).toList =
          pre ++ ':' :: w :: suf ∧ isSpaceJS w = true ∧ suf = h.toList ++ rest2)) ∧
    ((parseCryptoLongcode s).blockchainHash = some h →
      26 ≤ h.length ∧
      (∃ c t, h.toList = c :: t ∧ isAlnumChar c = true) ∧
      (∀ c ∈ h.toList, isDotChar c = true) ∧
      (∃ pre w suf rest2,
        (tokenOrUndefined (parseCryptoLongcode s).splitLongcode 1).toList =
          pre ++ ':' :: w :: suf ∧ isSpaceJS w = true ∧ suf = h.toList ++ rest2)) := by
  constructor
  · intro hsome
    unfold parseCryptoLongcode at hsome
    obtain ⟨cap, hexec, hcap⟩ := Option.map_eq_some'.mp hsome
    obtain ⟨pre, w, suf, rest2, hl, hw, hsuf, hlen, hhead, hdot⟩ :=
      execHash_shape 25 28 (by omega) _ cap hexec
    have hlist : h.toList = cap := by
      rw [← hcap]
      exact rfl
    have hlength : h.length = cap.length := by
      rw [← hcap]
      exact rfl
    constructor
    · rw [hlength]
      exact hlen
    · refine ⟨?_, ?_, ?_⟩
      · rw [hlist]; exact hhead
      · rw [hlist]; exact hdot
      · exact ⟨pre, w, suf, rest2, hl, hw, by rw [hlist]; exact hsuf⟩
  · intro hsome
    unfold parseCryptoLongcode at hsome
    obtain ⟨cap, hexec, hcap⟩ := Option.map_eq_some'.mp hsome
    obtain ⟨pre, w, suf, rest2, hl, hw, hsuf, hlen, hhead, hdot⟩ :=
      execHash_shape 25 34 (by omega) _ cap hexec
    have hlist : h.toList = cap := by
      rw [← hcap]
      exact rfl
    have hlength : h.length = cap.length := by
      rw [← hcap]
      exact rfl
    constructor
    · rw [hlength]
      exact hlen
    · refine ⟨?_, ?_, ?_⟩
      · rw [hlist]; exact hhead
      · rw [hlist]; exact hdot
      · exact ⟨pre, w, suf, rest2, hl, hw, by rw [hlist]; exact hsuf⟩

/-- C4 witness: the amended shape applied to a concrete well-formed
longcode (both hashes defined, lengths at least 26). -/
theorem parseCryptoLongcode_hash_shape_witness :
    26 ≤ ("abcdefghijklmnopqrstuvwxyzXY" : String).length ∧
    26 ≤ ("abcdefghijklmnopqrstuvwxyz123456789" : String).length :=
  ⟨((parseCryptoLongcode_hash_shape
      "address: abcdefghijklmnopqrstuvwxyzXY, transaction: abcdefghijklmnopqrstuvwxyz123456789"
      "abcdefghijklmnopqrstuvwxyzXY").1 rfl).1,
   ((parseCryptoLongcode_hash_shape
      "address: abcdefghijklmnopqrstuvwxyzXY, transaction: abcdefghijklmnopqrstuvwxyz123456789"
      "abcdefghijklmnopqrstuvwxyz123456789").2 rfl).1⟩

/-- C10: `parseCryptoLongcode` is total (a plain function returning a
result for every longcode, including single-token ones, where the missing
second token is read as the string "undefined"), and the two extractions
are independent: each hash depends only on its own token, a hash is unset
exactly when its own pattern fails on its own token, and a malformed
first segment leaves `addressHash` unset while `blockchainHash` is still
set. -/
theorem parseCryptoLongcode_independent (s₁ s₂ : String) :
    ((tokenOrUndefined ((jsSplitCommaSpace s₁.toList).map List.asString) 0 =
        tokenOrUndefined ((jsSplitCommaSpace s₂.toList).map List.asString) 0 →
      (parseCryptoLongcode s₁).addressHash = (parseCryptoLongcode s₂).addressHash) ∧
    (tokenOrUndefined ((jsSplitCommaSpace s₁.toList).map List.asString) 1 =
        tokenOrUndefined ((jsSplitCommaSpace s₂.toList).map List.asString) 1 →
      (parseCryptoLongcode s₁).blockchainHash = (parseCryptoLongcode s₂).blockchainHash)) ∧
    ((parseCryptoLongcode s₁).addressHash = none ↔
      execHash 25 28 (tokenOrUndefined (parseCryptoLongcode s₁).splitLongcode 0).toList =
        none) ∧
    ((parseCryptoLongcode s₁).blockchainHash = none ↔
      execHash 25 34 (tokenOrUndefined (parseCryptoLongcode s₁).splitLongcode 1).toList =
        none) ∧
    (parseCryptoLongcode "bad first segment, address: abcdefghijklmnopqrstuvwxyz").addressHash
      = none ∧
    (parseCryptoLongcode "bad first segment, address: abcdefghijklmnopqrstuvwxyz").blockchainHash
      = some "abcdefghijklmnopqrstuvwxyz" ∧
    (parseCryptoLongcode "no commas here").splitLongcode.length = 1 ∧
    (parseCryptoLongcode "no commas here").blockchainHash = none := by
  refine ⟨⟨?_, ?_⟩, ?_, ?_, rfl, rfl, rfl, rfl⟩
  · intro htok
    show Option.map List.asString (execHash 25 28
        (tokenOrUndefined ((jsSplitCommaSpace s₁.toList).map List.asString) 0).toList) =
      Option.map List.asString (execHash 25 28
        (tokenOrUndefined ((jsSplitCommaSpace s₂.toList).map List.asString) 0).toList)
    rw [htok]
  · intro htok
    show Option.map List.asString (execHash 25 34
        (tokenOrUndefined ((jsSplitCommaSpace s₁.toList).map List.asString) 1).toList) =
      Option.map List.asString (execHash 25 34
        (tokenOrUndefined ((jsSplitCommaSpace s₂.toList).map List.asString) 1).toList)
    rw [htok]
  · unfold parseCryptoLongcode
    simp
  · unfold parseCryptoLongcode
    simp

/-- C10 witness: two longcodes sharing their first token have the same
`addressHash`, applied to the concrete pair "abc" and "abc, def". -/
theorem parseCryptoLongcode_independent_witness :
    (parseCryptoLongcode "abc").addressHash = (parseCryptoLongcode "abc, def").addressHash :=
  (parseCryptoLongcode_independent "abc" "abc, def").1.1 rfl

end DerivUtils








